import Mathlib

/-!
Verification of the yolov3_darknet53_vehicles PaddleHub module
(src/modules/image/object_detection/yolov3_darknet53_vehicles/module.py).

The module wires a black-box inference engine between an image reader and a
postprocessor.  The engine, the path decoder and the base64 decoder are
external collaborators and are modelled as parameters (fields of `Ctx`).
The helpers imported by module.py (`data_feed.reader`, `processor.postprocess`,
`processor.base64_to_cv2`) are not part of the sources here, so they are
modelled from the specification, as indicated on each definition.
Machine floats are modelled as rationals.
-/

namespace YoloVehicles

/-- An input image: original height, width (pixels) and abstract pixel payload.
The payload stands for the decoded array content; the pipeline only forwards
it to the engine. -/
structure InputImage where
  h : Nat
  w : Nat
  pix : List Nat
deriving DecidableEq

instance : Inhabited InputImage := ⟨⟨0, 0, []⟩⟩

/-- One raw output row of the inference engine, as described by the spec
(section 4.3): image index within the batch, class id, confidence and the
box corners in canvas (608 by 608) space. -/
structure RawRow where
  imIdx : Nat
  classId : Nat
  confidence : ℚ
  x1 : ℚ
  y1 : ℚ
  x2 : ℚ
  y2 : ℚ
deriving DecidableEq

/-- A decoded detection, one entry of a result record's data list
(module.py docstring of object_detection). -/
structure Detection where
  label : String
  confidence : ℚ
  left : ℚ
  top : ℚ
  right : ℚ
  bottom : ℚ
deriving DecidableEq

/-- One result record per input image: optional save path and the ordered
detections. -/
structure ResultRecord where
  save_path : Option String
  data : List Detection
deriving DecidableEq

instance : Inhabited ResultRecord := ⟨⟨none, []⟩⟩

/-- Keyword options of object_detection (module.py lines 166-173), in the
order of the Python signature. -/
structure Options where
  batch_size : Nat
  use_gpu : Bool
  output_dir : String
  score_thresh : ℚ
  visualization : Bool
deriving DecidableEq

/-- External collaborators and ambient state of one module instance: the two
predictors (CPU and GPU), the image decoder used for file paths, the value of
the CUDA_VISIBLE_DEVICES environment variable, and the loaded label list. -/
structure Ctx where
  engineCpu : List InputImage → List RawRow
  engineGpu : List InputImage → List RawRow
  decodePath : String → InputImage
  env : Option String
  labels : List String

/-- The CUDA_VISIBLE_DEVICES check of module.py lines 48-53 and 196-203:
read the variable, take its first character and parse it as an integer;
any exception (unset variable, empty string, non-digit first character)
makes the check fail.  A single character parses as an integer exactly
when it is a decimal digit. -/
def checkCudaEnv : Option String → Bool
  | none => false
  | some s =>
    match s.data with
    | [] => false
    | c :: _ => c.isDigit

/-- The error message raised by object_detection (module.py lines 201-203). -/
def gpuErrMsg : String :=
  "Attempt to use GPU for prediction, but environment variable CUDA_VISIBLE_DEVICES was not set correctly."

/-- Modelled from the spec: data_feed.reader is not under src/.  Section 4.2:
the reader accepts at most one of the two sources as the live input, with
paths taking precedence when both are non-empty; each path is decoded into
an image. -/
def reader (decodePath : String → InputImage) (paths : List String)
    (images : List InputImage) : List InputImage :=
  match paths with
  | [] => images
  | _ => paths.map decodePath

/-- Fuel-indexed batching: take batch_size elements at a time.  The fuel is
an upper bound on the number of list elements and only forces structural
termination. -/
def chunkListF (bs : Nat) : Nat → List α → List (List α)
  | _, [] => []
  | 0, _ :: _ => []
  | fuel + 1, a :: l => (a :: l.take (bs - 1)) :: chunkListF bs fuel (l.drop (bs - 1))

/-- The batch reader fluid.io.batch (module.py line 207): split the input
stream into consecutive batches of batch_size images, the last batch
possibly shorter. -/
def chunkList (bs : Nat) (l : List α) : List (List α) :=
  chunkListF bs l.length l

/-- Coordinate rescaling of spec section 4.4 step 4: map a canvas-space
coordinate to the original image's pixel space by the linear per-axis
factor size / 608. -/
def rescaleCoord (size x : ℚ) : ℚ :=
  x * size / 608

/-- The inverse resize: map an original-space coordinate back onto the
608-pixel canvas. -/
def canvasCoord (size x : ℚ) : ℚ :=
  x * 608 / size

/-- Clipping to an interval, used to clip box coordinates to image bounds. -/
def clampQ (lo hi x : ℚ) : ℚ :=
  max lo (min x hi)

/-- Generated file name used for a visualised image of global index i. -/
def savePathName (odir : String) (i : Nat) : String :=
  odir ++ "/image_" ++ toString i ++ ".jpg"

/-- Modelled from the spec: processor.postprocess is not under src/.
Decoding one surviving raw row (spec section 4.4 steps 3-4): class id mapped
to a label name, coordinates rescaled from canvas space to the image's pixel
space and clipped to the image bounds. -/
def rowToDetectionPure (labels : List String) (img : InputImage) (r : RawRow) :
    Detection :=
  { label := labels.getD r.classId ""
    confidence := r.confidence
    left := clampQ 0 (img.w : ℚ) (rescaleCoord (img.w : ℚ) r.x1)
    top := clampQ 0 (img.h : ℚ) (rescaleCoord (img.h : ℚ) r.y1)
    right := clampQ 0 (img.w : ℚ) (rescaleCoord (img.w : ℚ) r.x2)
    bottom := clampQ 0 (img.h : ℚ) (rescaleCoord (img.h : ℚ) r.y2) }

/-- Modelled from the spec: an out-of-range class id is a fatal error
(spec section 4.4 step 3); otherwise the row decodes as rowToDetectionPure. -/
def rowToDetection (labels : List String) (img : InputImage) (r : RawRow) :
    Except String Detection :=
  if r.classId < labels.length then
    Except.ok (rowToDetectionPure labels img r)
  else
    Except.error "class id out of label range"

/-- A raw row survives for local image index i when it belongs to that image
and its confidence reaches the threshold (spec section 4.4 steps 1-2). -/
def keepRow (st : ℚ) (i : Nat) (r : RawRow) : Bool :=
  r.imIdx == i && decide (st ≤ r.confidence)

/-- Surviving detections of the image with local index i, in the engine's
output order. -/
def detsFor (labels : List String) (st : ℚ) (img : InputImage)
    (rows : List RawRow) (i : Nat) : List Detection :=
  (rows.filter (keepRow st i)).map (rowToDetectionPure labels img)

/-- Sequential fallible map, modelling a Python loop that appends results
and lets the first exception propagate. -/
def mapExcept (f : α → Except String β) : List α → Except String (List β)
  | [] => Except.ok []
  | a :: l =>
    match f a with
    | Except.error e => Except.error e
    | Except.ok b =>
      match mapExcept f l with
      | Except.error e => Except.error e
      | Except.ok r => Except.ok (b :: r)

/-- Modelled from the spec: processor.postprocess is not under src/.
Spec section 4.4: group the raw rows of one engine call by local image
index, discard rows under the threshold, decode the survivors, and emit one
result record per image of the batch; the image of local index i is input
number handle_id + i of the overall request (handle_id = batch index times
batch size, module.py line 227); save_path is set exactly when visualization
is requested. -/
def postprocess (labels : List String) (st : ℚ) (vis : Bool) (odir : String)
    (allInputs : List InputImage) (handle_id : Nat) (batchLen : Nat)
    (rows : List RawRow) : Except String (List ResultRecord) :=
  mapExcept
    (fun i =>
      match mapExcept (rowToDetection labels (allInputs.getD (handle_id + i) default))
          (rows.filter (keepRow st i)) with
      | Except.error e => Except.error e
      | Except.ok dets =>
        Except.ok
          { save_path := if vis then some (savePathName odir (handle_id + i)) else none
            data := dets })
    (List.range batchLen)

/-- The batch loop of object_detection (module.py lines 208-229): run the
engine on each batch in turn, postprocess with handle_id = iter_id *
batch_size, and append the outputs. -/
def runBatches (labels : List String) (st : ℚ) (vis : Bool) (odir : String)
    (allInputs : List InputImage) (engine : List InputImage → List RawRow)
    (bs : Nat) : Nat → List (List InputImage) → Except String (List ResultRecord)
  | _, [] => Except.ok []
  | t, b :: rest =>
    match postprocess labels st vis odir allInputs (t * bs) b.length (engine b) with
    | Except.error e => Except.error e
    | Except.ok out =>
      match runBatches labels st vis odir allInputs engine bs (t + 1) rest with
      | Except.error e => Except.error e
      | Except.ok tail => Except.ok (out ++ tail)

/-- The object_detection API (module.py lines 166-230): when use_gpu is
requested the CUDA_VISIBLE_DEVICES check must pass, otherwise a RuntimeError
is raised before any inference; then the reader output is batched and fed to
the selected predictor, and the postprocessed outputs are concatenated. -/
def object_detection (c : Ctx) (paths : List String) (images : List InputImage)
    (opts : Options) : Except String (List ResultRecord) :=
  if opts.use_gpu && !checkCudaEnv c.env then
    Except.error gpuErrMsg
  else
    runBatches c.labels opts.score_thresh opts.visualization opts.output_dir
      (reader c.decodePath paths images)
      (if opts.use_gpu then c.engineGpu else c.engineCpu)
      opts.batch_size 0
      (chunkList opts.batch_size (reader c.decodePath paths images))

/-- The serving entry point (module.py lines 255-262): decode every base64
string and call object_detection on the decoded images with the same keyword
options (paths is left at its default). -/
def serving_method (c : Ctx) (base64_to_cv2 : String → InputImage)
    (images : List String) (kwargs : Options) : Except String (List ResultRecord) :=
  object_detection c [] (images.map base64_to_cv2) kwargs

/-- Restatement of the spec's words for the serving entry point (section 6):
it decodes the base64 images and returns exactly what object_detection
returns on the decoded images with the same options. -/
def serving_method_spec (c : Ctx) (base64_to_cv2 : String → InputImage)
    (images : List String) (kwargs : Options) : Except String (List ResultRecord) :=
  object_detection c [] (images.map base64_to_cv2) kwargs

/-- Parsed command-line arguments with their argparse defaults
(module.py lines 292-327). -/
structure CmdArgs where
  input_path : Option String
  batch_size : Nat
  use_gpu : Bool
  output_dir : String
  visualization : Bool
  score_thresh : ℚ
deriving DecidableEq

/-- The argparse defaults: input_path has no default (None when omitted),
batch_size 1, use_gpu False, output_dir yolov3_vehicles_detect_output,
visualization False, score_thresh 0.2. -/
def defaultCmdArgs : CmdArgs :=
  { input_path := none
    batch_size := 1
    use_gpu := false
    output_dir := "yolov3_vehicles_detect_output"
    visualization := false
    score_thresh := 1 / 5 }

/-- Evaluation of a boolean literal, the ast.literal_eval values the
use_gpu and visualization options accept. -/
def parseBoolLit : String → Option Bool
  | "True" => some true
  | "False" => some false
  | _ => none

/-- Evaluation of a non-negative numeric literal (integer or decimal), the
ast.literal_eval values the batch_size and score_thresh options use. -/
def parseRatLit (s : String) : Option ℚ :=
  match s.splitOn "." with
  | [a] => (a.toNat?).map (fun n => (n : ℚ))
  | [a, b] =>
    match a.toNat?, b.toNat? with
    | some x, some y => some ((x : ℚ) + (y : ℚ) / (10 : ℚ) ^ b.length)
    | _, _ => none
  | _ => none

/-- The argparse parser built by run_cmd (module.py lines 269-282, 292-327):
each recognised option consumes one value token; a malformed value or an
unrecognised token is a parse error; an omitted option keeps its default;
omitting input_path is accepted by the parser and leaves it None. -/
def parse_args : CmdArgs → List String → Except String CmdArgs
  | acc, [] => Except.ok acc
  | acc, "--input_path" :: v :: rest =>
    parse_args { acc with input_path := some v } rest
  | acc, "--batch_size" :: v :: rest =>
    match v.toNat? with
    | some n => parse_args { acc with batch_size := n } rest
    | none => Except.error "malformed value for option batch_size"
  | acc, "--use_gpu" :: v :: rest =>
    match parseBoolLit v with
    | some b => parse_args { acc with use_gpu := b } rest
    | none => Except.error "malformed value for option use_gpu"
  | acc, "--output_dir" :: v :: rest =>
    parse_args { acc with output_dir := v } rest
  | acc, "--visualization" :: v :: rest =>
    match parseBoolLit v with
    | some b => parse_args { acc with visualization := b } rest
    | none => Except.error "malformed value for option visualization"
  | acc, "--score_thresh" :: v :: rest =>
    match parseRatLit v with
    | some q => parse_args { acc with score_thresh := q } rest
    | none => Except.error "malformed value for option score_thresh"
  | _, _ => Except.error "unrecognized arguments"

/-- The CLI entry point run_cmd (module.py lines 264-290): parse the
arguments and call object_detection with paths = [input_path] and the parsed
options.  When input_path was omitted, Python passes the path None, which the
reader cannot read.  Modelled from the spec for that branch: section 4.2,
the reader fails with a decode error on an unreadable input, surfaced and
not retried. -/
def runCmd (c : Ctx) (argvs : List String) : Except String (List ResultRecord) :=
  match parse_args defaultCmdArgs argvs with
  | Except.error e => Except.error e
  | Except.ok args =>
    match args.input_path with
    | none => Except.error "decode error: cannot read input image at path None"
    | some p =>
      object_detection c [p] []
        { batch_size := args.batch_size
          use_gpu := args.use_gpu
          output_dir := args.output_dir
          score_thresh := args.score_thresh
          visualization := args.visualization }

/-- The image of global index j is looked up in the full input list; its
detections come from the engine's rows for the batch containing j, filtered
for local index j mod batch_size.  This is the intended shape of the j-th
result record. -/
def specRecord (labels : List String) (st : ℚ) (vis : Bool) (odir : String)
    (allInputs : List InputImage) (engine : List InputImage → List RawRow)
    (bs : Nat) (j : Nat) : ResultRecord :=
  { save_path := if vis then some (savePathName odir j) else none
    data := detsFor labels st (allInputs.getD j default)
      (engine ((allInputs.drop (bs * (j / bs))).take bs)) (j % bs) }

/-- Error-free total version of the batch loop, used to state what the
fallible loop returns when no class id is out of range. -/
def pureRun (labels : List String) (st : ℚ) (vis : Bool) (odir : String)
    (allInputs : List InputImage) (engine : List InputImage → List RawRow)
    (bs : Nat) : Nat → List (List InputImage) → List ResultRecord
  | _, [] => []
  | t, b :: rest =>
    ((List.range b.length).map fun i =>
      { save_path := if vis then some (savePathName odir (t * bs + i)) else none
        data := detsFor labels st (allInputs.getD (t * bs + i) default) (engine b) i })
    ++ pureRun labels st vis odir allInputs engine bs (t + 1) rest

theorem chunkListF_congr (bs : Nat) :
    ∀ (f1 f2 : Nat) (l : List α), l.length ≤ f1 → l.length ≤ f2 →
      chunkListF bs f1 l = chunkListF bs f2 l := by
  intro f1
  induction f1 with
  | zero =>
    intro f2 l h1 _
    cases l with
    | nil => cases f2 <;> rfl
    | cons a l => simp at h1
  | succ f ih =>
    intro f2 l h1 h2
    cases l with
    | nil => cases f2 <;> rfl
    | cons a l =>
      cases f2 with
      | zero => simp at h2
      | succ g =>
        simp only [List.length_cons] at h1 h2
        simp only [chunkListF]
        refine congrArg _ (ih g (l.drop (bs - 1)) ?_ ?_) <;>
          simp only [List.length_drop] <;> omega

theorem chunkList_nil (bs : Nat) : chunkList bs ([] : List α) = [] := rfl

theorem chunkList_cons (bs : Nat) (hbs : 0 < bs) (a : α) (l : List α) :
    chunkList bs (a :: l) = ((a :: l).take bs) :: chunkList bs ((a :: l).drop bs) := by
  obtain ⟨k, rfl⟩ : ∃ k, bs = k + 1 := ⟨bs - 1, by omega⟩
  simp only [chunkList, List.length_cons, chunkListF, List.take_succ_cons,
    List.drop_succ_cons, Nat.add_sub_cancel]
  refine congrArg _ (chunkListF_congr _ _ _ _ ?_ ?_) <;>
    simp only [List.length_drop] <;> omega

theorem chunkList_getD (bs : Nat) (hbs : 0 < bs) :
    ∀ (t : Nat) (l : List α), (chunkList bs l).getD t [] = (l.drop (bs * t)).take bs := by
  intro t
  induction t with
  | zero =>
    intro l
    cases l with
    | nil => simp [chunkList_nil]
    | cons a l => simp [chunkList_cons bs hbs]
  | succ t ih =>
    intro l
    cases l with
    | nil => simp [chunkList_nil]
    | cons a l =>
      rw [chunkList_cons bs hbs]
      simp only [List.getD_cons_succ]
      rw [ih, List.drop_drop]
      have h : bs + bs * t = bs * (t + 1) := by ring
      rw [h]

theorem mapExcept_ok {α β : Type} (f : α → Except String β) (g : α → β)
    (l : List α) (h : ∀ a ∈ l, f a = Except.ok (g a)) :
    mapExcept f l = Except.ok (l.map g) := by
  induction l with
  | nil => rfl
  | cons a l ih =>
    simp only [mapExcept, h a (List.mem_cons_self a l)]
    rw [ih (fun x hx => h x (List.mem_cons_of_mem a hx))]
    rfl

theorem rowToDetection_ok (labels : List String) (img : InputImage) (r : RawRow)
    (h : r.classId < labels.length) :
    rowToDetection labels img r = Except.ok (rowToDetectionPure labels img r) := by
  simp [rowToDetection, h]

theorem postprocess_ok (labels : List String) (st : ℚ) (vis : Bool) (odir : String)
    (allInputs : List InputImage) (handle_id : Nat) (batchLen : Nat)
    (rows : List RawRow) (hcls : ∀ r ∈ rows, r.classId < labels.length) :
    postprocess labels st vis odir allInputs handle_id batchLen rows
      = Except.ok ((List.range batchLen).map fun i =>
          { save_path := if vis then some (savePathName odir (handle_id + i)) else none
            data := detsFor labels st (allInputs.getD (handle_id + i) default) rows i }) := by
  unfold postprocess
  apply mapExcept_ok
  intro i _
  rw [mapExcept_ok (rowToDetection labels (allInputs.getD (handle_id + i) default))
    (rowToDetectionPure labels (allInputs.getD (handle_id + i) default))
    (rows.filter (keepRow st i))
    (fun r hr => rowToDetection_ok _ _ r (hcls r (List.mem_of_mem_filter hr)))]
  rfl

theorem runBatches_ok (labels : List String) (st : ℚ) (vis : Bool) (odir : String)
    (allInputs : List InputImage) (engine : List InputImage → List RawRow)
    (bs : Nat) (hcls : ∀ b r, r ∈ engine b → r.classId < labels.length) :
    ∀ (t : Nat) (batches : List (List InputImage)),
      runBatches labels st vis odir allInputs engine bs t batches
        = Except.ok (pureRun labels st vis odir allInputs engine bs t batches) := by
  intro t batches
  induction batches generalizing t with
  | nil => rfl
  | cons b rest ih =>
    simp only [runBatches, pureRun]
    rw [postprocess_ok labels st vis odir allInputs (t * bs) b.length (engine b)
      (fun r hr => hcls b r hr), ih (t + 1)]

theorem specRecord_at (labels : List String) (st : ℚ) (vis : Bool) (odir : String)
    (allInputs : List InputImage) (engine : List InputImage → List RawRow)
    (bs : Nat) (hbs : 0 < bs) (t i : Nat) (hi : i < bs) :
    specRecord labels st vis odir allInputs engine bs (t * bs + i)
      = { save_path := if vis then some (savePathName odir (t * bs + i)) else none
          data := detsFor labels st (allInputs.getD (t * bs + i) default)
            (engine ((allInputs.drop (t * bs)).take bs)) i } := by
  have hdiv : (t * bs + i) / bs = t := by
    rw [Nat.mul_comm, Nat.mul_add_div hbs, Nat.div_eq_of_lt hi, Nat.add_zero]
  have hmod : (t * bs + i) % bs = i := by
    rw [Nat.mul_comm, Nat.mul_add_mod, Nat.mod_eq_of_lt hi]
  simp only [specRecord, hdiv, hmod, Nat.mul_comm bs t]

theorem pureRun_chunk (labels : List String) (st : ℚ) (vis : Bool) (odir : String)
    (allInputs : List InputImage) (engine : List InputImage → List RawRow)
    (bs : Nat) (hbs : 0 < bs) :
    ∀ (n t : Nat) (rem : List InputImage), rem.length ≤ n →
      rem = allInputs.drop (t * bs) →
      pureRun labels st vis odir allInputs engine bs t (chunkList bs rem)
        = (List.range rem.length).map
            (fun i => specRecord labels st vis odir allInputs engine bs (t * bs + i)) := by
  intro n
  induction n with
  | zero =>
    intro t rem hlen _
    have hnil : rem = [] := List.length_eq_zero.mp (Nat.le_zero.mp hlen)
    subst hnil
    simp [chunkList_nil, pureRun]
  | succ n ih =>
    intro t rem hlen hrem
    cases rem with
    | nil => simp [chunkList_nil, pureRun]
    | cons a l =>
      have hbatch : (a :: l).take bs = (allInputs.drop (t * bs)).take bs := by
        rw [hrem]
      have hdroplen : ((a :: l).drop bs).length = (a :: l).length - bs := by
        simp [List.length_drop]
      have htail : (a :: l).drop bs = allInputs.drop ((t + 1) * bs) := by
        rw [hrem, List.drop_drop]
        congr 1
        ring
      have htlen : ((a :: l).drop bs).length ≤ n := by
        simp only [List.length_drop, List.length_cons] at hlen ⊢
        omega
      rw [chunkList_cons bs hbs]
      simp only [pureRun]
      rw [ih (t + 1) ((a :: l).drop bs) htlen htail, hdroplen]
      have hm : ((a :: l).take bs).length = min bs (a :: l).length := by
        simp [List.length_take]
      have hsplit : (a :: l).length = min bs (a :: l).length + ((a :: l).length - bs) := by
        omega
      conv_rhs => rw [hsplit, List.range_add, List.map_append, List.map_map]
      congr 1
      · rw [hm]
        apply List.map_congr_left
        intro i hi
        have hi' : i < bs := by
          have := List.mem_range.mp hi
          omega
        rw [specRecord_at labels st vis odir allInputs engine bs hbs t i hi', ← hbatch]
      · apply List.map_congr_left
        intro i hi
        have hlt : i < (a :: l).length - bs := List.mem_range.mp hi
        have hmin : min bs (a :: l).length = bs := by omega
        simp only [Function.comp, hmin]
        congr 1
        ring

theorem object_detection_ok (c : Ctx) (paths : List String) (images : List InputImage)
    (opts : Options) (hbs : 0 < opts.batch_size)
    (hgpu : (opts.use_gpu && !checkCudaEnv c.env) = false)
    (hcls : ∀ b r, r ∈ (if opts.use_gpu then c.engineGpu else c.engineCpu) b →
      r.classId < c.labels.length) :
    object_detection c paths images opts
      = Except.ok ((List.range (reader c.decodePath paths images).length).map
          (specRecord c.labels opts.score_thresh opts.visualization opts.output_dir
            (reader c.decodePath paths images)
            (if opts.use_gpu then c.engineGpu else c.engineCpu) opts.batch_size)) := by
  unfold object_detection
  rw [if_neg (by simp [hgpu])]
  rw [runBatches_ok c.labels opts.score_thresh opts.visualization opts.output_dir
    (reader c.decodePath paths images) (if opts.use_gpu then c.engineGpu else c.engineCpu)
    opts.batch_size hcls 0 (chunkList opts.batch_size (reader c.decodePath paths images))]
  congr 1
  rw [pureRun_chunk c.labels opts.score_thresh opts.visualization opts.output_dir
    (reader c.decodePath paths images) (if opts.use_gpu then c.engineGpu else c.engineCpu)
    opts.batch_size hbs (reader c.decodePath paths images).length 0
    (reader c.decodePath paths images) (le_refl _) (by simp)]
  apply List.map_congr_left
  intro i _
  simp only [Nat.zero_mul, Nat.zero_add]

theorem mapRange_getD {β : Type} [Inhabited β] (f : Nat → β) (len j : Nat)
    (hj : j < len) : ((List.range len).map f).getD j default = f j := by
  rw [List.getD_eq_getElem?_getD, List.getElem?_map, List.getElem?_range hj]
  rfl

theorem clampQ_nonneg (hi x : ℚ) : 0 ≤ clampQ 0 hi x :=
  le_max_left 0 _

theorem clampQ_le_hi (hi x : ℚ) (h : 0 ≤ hi) : clampQ 0 hi x ≤ hi :=
  max_le h (min_le_right x hi)

theorem clampQ_mono (hi x y : ℚ) (h : x ≤ y) : clampQ 0 hi x ≤ clampQ 0 hi y :=
  max_le_max (le_refl 0) (min_le_min h (le_refl hi))

theorem rescaleCoord_mono (size x y : ℚ) (hs : 0 ≤ size) (h : x ≤ y) :
    rescaleCoord size x ≤ rescaleCoord size y := by
  unfold rescaleCoord
  have h608 : (0 : ℚ) < 608 := by norm_num
  exact (div_le_div_iff_of_pos_right h608).mpr (mul_le_mul_of_nonneg_right h hs)

theorem roundtrip_coord (size x : ℚ) (hs : 0 < size) (h0 : 0 ≤ x) (h1 : x ≤ 608) :
    canvasCoord size (clampQ 0 size (rescaleCoord size x)) = x := by
  have h608 : (0 : ℚ) < 608 := by norm_num
  have hge : 0 ≤ rescaleCoord size x := by
    unfold rescaleCoord
    positivity
  have hle : rescaleCoord size x ≤ size := by
    unfold rescaleCoord
    rw [div_le_iff₀ h608]
    nlinarith
  have hclamp : clampQ 0 size (rescaleCoord size x) = rescaleCoord size x := by
    unfold clampQ
    rw [min_eq_left hle, max_eq_right hge]
  rw [hclamp]
  unfold canvasCoord rescaleCoord
  have hsne : size ≠ 0 := ne_of_gt hs
  field_simp

/-- C4: with use_gpu requested and the CUDA_VISIBLE_DEVICES check failing,
object_detection returns the configuration RuntimeError.  The conclusion holds
for every context, hence for every pair of predictors: neither the GPU nor
the CPU engine can influence the result, so no inference happens and there is
no silent CPU fallback. -/
theorem c4_gpu_env_failfast (c : Ctx) (paths : List String)
    (images : List InputImage) (opts : Options)
    (hgpu : opts.use_gpu = true) (henv : checkCudaEnv c.env = false) :
    object_detection c paths images opts = Except.error gpuErrMsg := by
  unfold object_detection
  rw [if_pos (by simp [hgpu, henv])]

/-- C5: the serving entry point returns exactly what object_detection returns
on the base64-decoded images with the same keyword options. -/
theorem c5_serving_equiv (c : Ctx) (base64_to_cv2 : String → InputImage)
    (images : List String) (kwargs : Options) :
    serving_method c base64_to_cv2 images kwargs
        = serving_method_spec c base64_to_cv2 images kwargs
    ∧ serving_method_spec c base64_to_cv2 images kwargs
        = object_detection c [] (images.map base64_to_cv2) kwargs :=
  ⟨rfl, rfl⟩

/-- C7: when the paths argument is non-empty the reader takes the decoded
paths as the live input source, and the in-memory images argument has no
influence on the result of object_detection. -/
theorem c7_paths_precedence (c : Ctx) (paths : List String)
    (images images2 : List InputImage) (opts : Options) (hp : paths ≠ []) :
    reader c.decodePath paths images = paths.map c.decodePath ∧
    object_detection c paths images opts = object_detection c paths images2 opts := by
  have hr : ∀ im : List InputImage,
      reader c.decodePath paths im = paths.map c.decodePath := by
    intro im
    cases paths with
    | nil => exact absurd rfl hp
    | cons a l => rfl
  refine ⟨hr images, ?_⟩
  unfold object_detection
  rw [hr images, hr images2]

/-- C8: the CLI raises when the input is missing (the parser leaves
input_path at None and the subsequent read of path None fails), and with only
the input path given it runs object_detection with the defaults batch_size 1,
use_gpu false, output_dir yolov3_vehicles_detect_output, visualization false
and score_thresh 0.2. -/
theorem c8_cli_defaults (c : Ctx) (p : String) :
    runCmd c [] = Except.error "decode error: cannot read input image at path None"
    ∧ runCmd c ["--input_path", p]
        = object_detection c [p] []
            { batch_size := 1
              use_gpu := false
              output_dir := "yolov3_vehicles_detect_output"
              score_thresh := 1 / 5
              visualization := false } :=
  ⟨rfl, rfl⟩

/-- C10: the CUDA_VISIBLE_DEVICES check succeeds exactly when the variable is
set to a non-empty string whose first character is a decimal digit,
regardless of the rest of the string; in particular it fails on an unset
variable, on the empty string and on a leading minus sign, and passes on a
device list such as 0,1. -/
theorem c10_env_check_iff (env : Option String) :
    (checkCudaEnv env = true ↔
      ∃ s ch cs, env = some s ∧ s.data = ch :: cs ∧ ch.isDigit = true)
    ∧ checkCudaEnv (some "-1") = false
    ∧ checkCudaEnv (some "") = false
    ∧ checkCudaEnv none = false
    ∧ checkCudaEnv (some "0,1") = true := by
  refine ⟨?_, by decide, by decide, rfl, by decide⟩
  constructor
  · intro h
    cases env with
    | none => simp [checkCudaEnv] at h
    | some s =>
      rcases hd : s.data with _ | ⟨ch, cs⟩
      · rw [checkCudaEnv, hd] at h
        simp at h
      · rw [checkCudaEnv, hd] at h
        exact ⟨s, ch, cs, rfl, hd, h⟩
  · rintro ⟨s, ch, cs, rfl, hd, hdig⟩
    rw [checkCudaEnv, hd]
    exact hdig

/-- C1: for a non-empty request, object_detection succeeds with exactly one
result record per input image; the j-th record belongs to the j-th input, and
its data list is the threshold filter of the engine's rows for that image,
in the engine's output order (specRecord unfolds to that filter-map). -/
theorem c1_count_and_order (c : Ctx) (paths : List String)
    (images : List InputImage) (opts : Options)
    (_hne : paths ≠ [] ∨ images ≠ [])
    (hbs : 0 < opts.batch_size)
    (hgpu : (opts.use_gpu && !checkCudaEnv c.env) = false)
    (hcls : ∀ b r, r ∈ (if opts.use_gpu then c.engineGpu else c.engineCpu) b →
      r.classId < c.labels.length) :
    ∃ res, object_detection c paths images opts = Except.ok res ∧
      res.length = (reader c.decodePath paths images).length ∧
      ∀ j, j < res.length →
        res.getD j default
          = specRecord c.labels opts.score_thresh opts.visualization
              opts.output_dir (reader c.decodePath paths images)
              (if opts.use_gpu then c.engineGpu else c.engineCpu)
              opts.batch_size j := by
  refine ⟨_, object_detection_ok c paths images opts hbs hgpu hcls, by simp, ?_⟩
  intro j hj
  simp only [List.length_map, List.length_range] at hj
  exact mapRange_getD _ _ j hj

/-- C2: every returned detection has confidence at least score_thresh (rows
below the threshold are discarded), and, the engine being a black box whose
rows carry probabilities in the unit interval, every returned confidence
stays in the unit interval. -/
theorem c2_confidence_bounds (c : Ctx) (paths : List String)
    (images : List InputImage) (opts : Options)
    (hbs : 0 < opts.batch_size)
    (hgpu : (opts.use_gpu && !checkCudaEnv c.env) = false)
    (hcls : ∀ b r, r ∈ (if opts.use_gpu then c.engineGpu else c.engineCpu) b →
      r.classId < c.labels.length)
    (hconf : ∀ b r, r ∈ (if opts.use_gpu then c.engineGpu else c.engineCpu) b →
      0 ≤ r.confidence ∧ r.confidence ≤ 1)
    (res : List ResultRecord)
    (hres : object_detection c paths images opts = Except.ok res) :
    ∀ rec ∈ res, ∀ d ∈ rec.data,
      opts.score_thresh ≤ d.confidence ∧ 0 ≤ d.confidence ∧ d.confidence ≤ 1 := by
  rw [object_detection_ok c paths images opts hbs hgpu hcls] at hres
  injection hres with hres
  subst hres
  intro rec hrec d hd
  rw [List.mem_map] at hrec
  obtain ⟨j, _, rfl⟩ := hrec
  simp only [specRecord, detsFor, List.mem_map] at hd
  obtain ⟨r, hr, rfl⟩ := hd
  rw [List.mem_filter] at hr
  obtain ⟨hrmem, hkeep⟩ := hr
  rw [keepRow, Bool.and_eq_true, decide_eq_true_eq] at hkeep
  have hrange := hconf _ r hrmem
  exact ⟨hkeep.2, by simpa [rowToDetectionPure] using hrange⟩

/-- C3: every returned detection of the j-th record, whose coordinates were
rescaled to the j-th input image's pixel space and clipped there, satisfies
left at most right and top at most bottom (the engine emits ordered corners,
and clipping is monotone), and all four coordinates lie inside the image's
pixel bounds. -/
theorem c3_box_bounds (c : Ctx) (paths : List String)
    (images : List InputImage) (opts : Options)
    (hbs : 0 < opts.batch_size)
    (hgpu : (opts.use_gpu && !checkCudaEnv c.env) = false)
    (hcls : ∀ b r, r ∈ (if opts.use_gpu then c.engineGpu else c.engineCpu) b →
      r.classId < c.labels.length)
    (hxy : ∀ b r, r ∈ (if opts.use_gpu then c.engineGpu else c.engineCpu) b →
      r.x1 ≤ r.x2 ∧ r.y1 ≤ r.y2)
    (res : List ResultRecord)
    (hres : object_detection c paths images opts = Except.ok res) :
    ∀ j, j < res.length → ∀ d ∈ (res.getD j default).data,
      0 ≤ d.left ∧ d.left ≤ d.right ∧
        d.right ≤ (((reader c.decodePath paths images).getD j default).w : ℚ) ∧
      0 ≤ d.top ∧ d.top ≤ d.bottom ∧
        d.bottom ≤ (((reader c.decodePath paths images).getD j default).h : ℚ) := by
  rw [object_detection_ok c paths images opts hbs hgpu hcls] at hres
  injection hres with hres
  subst hres
  intro j hj d hd
  simp only [List.length_map, List.length_range] at hj
  rw [mapRange_getD _ _ j hj] at hd
  simp only [specRecord, detsFor, List.mem_map] at hd
  obtain ⟨r, hr, rfl⟩ := hd
  rw [List.mem_filter] at hr
  have hord := hxy _ r hr.1
  have hw0 : (0 : ℚ) ≤ (((reader c.decodePath paths images).getD j default).w : ℚ) :=
    Nat.cast_nonneg _
  have hh0 : (0 : ℚ) ≤ (((reader c.decodePath paths images).getD j default).h : ℚ) :=
    Nat.cast_nonneg _
  refine ⟨clampQ_nonneg _ _, ?_, clampQ_le_hi _ _ hw0, clampQ_nonneg _ _, ?_,
    clampQ_le_hi _ _ hh0⟩
  · exact clampQ_mono _ _ _ (rescaleCoord_mono _ _ _ hw0 hord.1)
  · exact clampQ_mono _ _ _ (rescaleCoord_mono _ _ _ hh0 hord.2)

/-- C6: raw engine rows are attributed to global input images with the
explicit offset iter_id times batch_size: the record of input number
k * batch_size + i takes exactly the rows of batch k (the k-th slice of the
inputs) whose within-batch image index is i, in order. -/
theorem c6_batch_attribution (c : Ctx) (paths : List String)
    (images : List InputImage) (opts : Options)
    (hbs : 0 < opts.batch_size)
    (hgpu : (opts.use_gpu && !checkCudaEnv c.env) = false)
    (hcls : ∀ b r, r ∈ (if opts.use_gpu then c.engineGpu else c.engineCpu) b →
      r.classId < c.labels.length)
    (res : List ResultRecord)
    (hres : object_detection c paths images opts = Except.ok res) :
    ∀ k i, i < opts.batch_size →
      k * opts.batch_size + i < (reader c.decodePath paths images).length →
      (res.getD (k * opts.batch_size + i) default).data
        = detsFor c.labels opts.score_thresh
            ((reader c.decodePath paths images).getD (k * opts.batch_size + i) default)
            ((if opts.use_gpu then c.engineGpu else c.engineCpu)
              (((reader c.decodePath paths images).drop (k * opts.batch_size)).take
                opts.batch_size))
            i := by
  rw [object_detection_ok c paths images opts hbs hgpu hcls] at hres
  injection hres with hres
  subst hres
  intro k i hi hlt
  rw [mapRange_getD _ _ _ (by simpa using hlt)]
  rw [specRecord_at _ _ _ _ _ _ _ hbs k i hi]

/-- C9: step 4 of the postprocessor is invertible: for a box computed on the
608-pixel canvas, rescaling it to the original image's space (with clipping
to the image bounds, which is the identity there) and re-resizing onto the
canvas reproduces the four canvas coordinates; over the rationals the round
trip is exact, so it holds within any rounding tolerance. -/
theorem c9_rescale_roundtrip (labels : List String) (img : InputImage)
    (r : RawRow) (hw : 0 < img.w) (hh : 0 < img.h)
    (hx1 : 0 ≤ r.x1 ∧ r.x1 ≤ 608) (hy1 : 0 ≤ r.y1 ∧ r.y1 ≤ 608)
    (hx2 : 0 ≤ r.x2 ∧ r.x2 ≤ 608) (hy2 : 0 ≤ r.y2 ∧ r.y2 ≤ 608) :
    canvasCoord (img.w : ℚ) (rowToDetectionPure labels img r).left = r.x1 ∧
    canvasCoord (img.h : ℚ) (rowToDetectionPure labels img r).top = r.y1 ∧
    canvasCoord (img.w : ℚ) (rowToDetectionPure labels img r).right = r.x2 ∧
    canvasCoord (img.h : ℚ) (rowToDetectionPure labels img r).bottom = r.y2 := by
  have hwq : (0 : ℚ) < (img.w : ℚ) := by exact_mod_cast hw
  have hhq : (0 : ℚ) < (img.h : ℚ) := by exact_mod_cast hh
  exact ⟨roundtrip_coord _ _ hwq hx1.1 hx1.2, roundtrip_coord _ _ hhq hy1.1 hy1.2,
    roundtrip_coord _ _ hwq hx2.1 hx2.2, roundtrip_coord _ _ hhq hy2.1 hy2.2⟩

/-- Witness fixture: a square 608 by 608 input image (scale factor one). -/
def wImg : InputImage := ⟨608, 608, []⟩

/-- Witness fixture: a 152 by 304 input image exercising the rescaling. -/
def wImg2 : InputImage := ⟨152, 304, []⟩

/-- Witness fixture: one engine row for image 0, class 0, confidence 0.9. -/
def wRow : RawRow := ⟨0, 0, 9 / 10, 10, 20, 30, 40⟩

/-- Witness fixture: the detection decoded from wRow on wImg. -/
def wDet : Detection := ⟨"car", 9 / 10, 10, 20, 30, 40⟩

/-- Witness fixture: the result record holding wDet. -/
def wRec : ResultRecord := ⟨none, [wDet]⟩

/-- Witness fixture: a context whose CPU engine always reports wRow, with one
label and no CUDA_VISIBLE_DEVICES variable. -/
def wCtx : Ctx := ⟨fun _ => [wRow], fun _ => [], fun _ => wImg, none, ["car"]⟩

/-- Witness fixture: default-like options on CPU. -/
def wOpts : Options := ⟨1, false, "out", 1 / 5, false⟩

/-- Witness fixture: the same options with use_gpu set. -/
def wOptsGpu : Options := ⟨1, true, "out", 1 / 5, false⟩

theorem c1_witness :
    ∃ res, object_detection wCtx [] [wImg] wOpts = Except.ok res ∧
      res.length = (reader wCtx.decodePath [] [wImg]).length ∧
      ∀ j, j < res.length →
        res.getD j default
          = specRecord wCtx.labels wOpts.score_thresh wOpts.visualization
              wOpts.output_dir (reader wCtx.decodePath [] [wImg])
              (if wOpts.use_gpu then wCtx.engineGpu else wCtx.engineCpu)
              wOpts.batch_size j :=
  c1_count_and_order wCtx [] [wImg] wOpts (Or.inr (by decide)) (by decide) (by decide)
    (fun b r hr => by
      have h : r = wRow := List.mem_singleton.mp hr
      subst h
      decide)

theorem wCls : ∀ b r, r ∈ (if wOpts.use_gpu then wCtx.engineGpu else wCtx.engineCpu) b →
    r.classId < wCtx.labels.length := by
  intro b r hr
  have h : r = wRow := List.mem_singleton.mp hr
  subst h
  decide

theorem wDet_eq : rowToDetectionPure ["car"] wImg wRow = wDet := by
  unfold rowToDetectionPure wImg wRow wDet
  norm_num [clampQ, rescaleCoord, min_def, max_def]

theorem wPipeline : object_detection wCtx [] [wImg] wOpts = Except.ok [wRec] := by
  rw [object_detection_ok wCtx [] [wImg] wOpts (by decide) (by decide) wCls]
  have hdec : decide ((1 : ℚ) / 5 ≤ 9 / 10) = true := decide_eq_true (by norm_num)
  have hr : reader wCtx.decodePath [] [wImg] = [wImg] := rfl
  rw [hr]
  simp only [List.length_cons, List.length_nil, List.range_succ, List.range_zero,
    List.nil_append, List.map_cons, List.map_nil]
  congr 1
  simp only [specRecord, detsFor, keepRow, wCtx, wOpts, wRow, List.filter, hdec,
    Bool.and_true, beq_self_eq_true, List.map_cons, List.map_nil]
  rw [show (List.getD [wImg] 0 default) = wImg from rfl]
  rw [show rowToDetectionPure ["car"] wImg ⟨0, 0, 9 / 10, 10, 20, 30, 40⟩
      = rowToDetectionPure ["car"] wImg wRow from rfl, wDet_eq]
  rfl

theorem c2_witness :
    wOpts.score_thresh ≤ wDet.confidence ∧ 0 ≤ wDet.confidence ∧ wDet.confidence ≤ 1 :=
  c2_confidence_bounds wCtx [] [wImg] wOpts (by decide) (by decide) wCls
    (fun b r hr => by
      have h : r = wRow := List.mem_singleton.mp hr
      subst h
      exact ⟨by norm_num [wRow], by norm_num [wRow]⟩)
    [wRec] wPipeline wRec (List.mem_singleton.mpr rfl) wDet (List.mem_singleton.mpr rfl)

theorem c3_witness :
    0 ≤ wDet.left ∧ wDet.left ≤ wDet.right ∧
      wDet.right ≤ (((reader wCtx.decodePath [] [wImg]).getD 0 default).w : ℚ) ∧
    0 ≤ wDet.top ∧ wDet.top ≤ wDet.bottom ∧
      wDet.bottom ≤ (((reader wCtx.decodePath [] [wImg]).getD 0 default).h : ℚ) :=
  c3_box_bounds wCtx [] [wImg] wOpts (by decide) (by decide) wCls
    (fun b r hr => by
      have h : r = wRow := List.mem_singleton.mp hr
      subst h
      exact ⟨by norm_num [wRow], by norm_num [wRow]⟩)
    [wRec] wPipeline 0 (by decide) wDet (List.mem_singleton.mpr rfl)

theorem c4_witness :
    object_detection wCtx [] [wImg] wOptsGpu = Except.error gpuErrMsg :=
  c4_gpu_env_failfast wCtx [] [wImg] wOptsGpu rfl rfl

theorem c6_witness :
    (([wRec] : List ResultRecord).getD (0 * wOpts.batch_size + 0) default).data
      = detsFor wCtx.labels wOpts.score_thresh
          ((reader wCtx.decodePath [] [wImg]).getD (0 * wOpts.batch_size + 0) default)
          ((if wOpts.use_gpu then wCtx.engineGpu else wCtx.engineCpu)
            (((reader wCtx.decodePath [] [wImg]).drop (0 * wOpts.batch_size)).take
              wOpts.batch_size))
          0 :=
  c6_batch_attribution wCtx [] [wImg] wOpts (by decide) (by decide) wCls
    [wRec] wPipeline 0 0 (by decide) (by decide)

theorem c7_witness :
    reader wCtx.decodePath ["a.jpg"] [wImg] = (["a.jpg"] : List String).map wCtx.decodePath ∧
    object_detection wCtx ["a.jpg"] [wImg] wOpts
      = object_detection wCtx ["a.jpg"] [] wOpts :=
  c7_paths_precedence wCtx ["a.jpg"] [wImg] [] wOpts (by decide)

theorem c9_witness :
    canvasCoord (wImg2.w : ℚ) (rowToDetectionPure ["car"] wImg2 wRow).left = wRow.x1 ∧
    canvasCoord (wImg2.h : ℚ) (rowToDetectionPure ["car"] wImg2 wRow).top = wRow.y1 ∧
    canvasCoord (wImg2.w : ℚ) (rowToDetectionPure ["car"] wImg2 wRow).right = wRow.x2 ∧
    canvasCoord (wImg2.h : ℚ) (rowToDetectionPure ["car"] wImg2 wRow).bottom = wRow.y2 :=
  c9_rescale_roundtrip ["car"] wImg2 wRow (by decide) (by decide)
    ⟨by decide, by decide⟩ ⟨by decide, by decide⟩ ⟨by decide, by decide⟩
    ⟨by decide, by decide⟩

end YoloVehicles
